import Mathlib

/-!
Verification of the payment reconciliation and idempotency engine of the
BrainiHi subscription backend (`payments.service.ts`, `payments.entity.ts`,
`payments.controller.ts`).

The TypeScript service is shallowly embedded: the `payments` table is a list
of `PaymentRow`s guarded by the three uniqueness constraints declared on the
`Payment` entity, the `user` table is a list of `UserRow`s, timestamps are
natural numbers (milliseconds since the epoch), money amounts are integers,
and every fallible operation returns `Except`.  The PayPal gateway is an
oracle argument (`String → Option GatewayResp`): `none` models a thrown
gateway error, `some` models the JSON the gateway returned.

Conventions taken from the source:
* `ON CONFLICT (client_temp_id)` in `createPendingPayment` targets a column
  whose index is declared non-unique (`ux_payments_client_temp_id`,
  `unique: false`), so PostgreSQL rejects the statement; the service catches
  the error and falls through to the plain insert.  The upsert branch is
  therefore modelled as a no-op.
* A PostgreSQL unique index treats NULLs as distinct, so two rows conflict
  on `ux_payments_user_plan_minute` only when all four indexed columns are
  pairwise equal and non-null.
* `new Date(x).setSeconds(0, 0)` is minute truncation on epoch milliseconds.
* `setDate(getDate() + 30)` adds 30 days and `setFullYear(getFullYear() + 1)`
  adds one calendar year; the latter is modelled as 365 days (the claims
  depend only on the expiry being recomputed, not on its exact value).
* The `raw` JSONB column is modelled by the `__meta` fields the service
  actually reads back (`reason`, `change_to`, `client_temp_id`,
  `createdAt`); a stored gateway response contains none of those fields and
  is modelled as `RawMeta.gateway`.
-/

namespace BrainiHi

/-- JS `??` on options (only null/undefined fall through). -/
def jsCoalesce {α : Type} (a b : Option α) : Option α :=
  match a with
  | some x => some x
  | none => b

/-- JS `a || b` on an optional string: `null`, `undefined` and `""` are falsy. -/
def jsOrStr (a : Option String) (b : String) : String :=
  match a with
  | some s => if s = "" then b else s
  | none => b

/-- ASCII lowercase of one character (JS `toLowerCase` on the character
range the gateway statuses and plan names use). -/
def charLower (c : Char) : Char :=
  if 65 ≤ c.toNat ∧ c.toNat ≤ 90 then Char.ofNat (c.toNat + 32) else c

/-- JS `String.prototype.toLowerCase`. -/
def strLower (s : String) : String := ⟨s.data.map charLower⟩

/-- Minute bucket: `new Date(t).setSeconds(0, 0)` on epoch milliseconds. -/
def minuteFloor (t : Nat) : Nat := t - t % 60000

/-- One millisecond-denominated day, for `setDate(getDate() + 30)`. -/
def dayMs : Nat := 86400000

/-- The statuses the service treats as "pending-like" (`pendingStatuses`). -/
def pendingStatuses : List String := ["pending", "created", "pending_capture", "authorized"]

/-- The statuses the service treats as successful/settled (`allowedStatuses`,
`paidStatuses`). -/
def paidStatuses : List String := ["completed", "captured", "succeeded", "success", "paid"]

/-- The statuses `captureOrder` treats as final before refreshing the
entitlement (`isFinal`). -/
def finalStatuses : List String := ["completed", "captured", "succeeded", "paid"]

/-- Terminal statuses in the sense of the specification glossary: settled
(any of the gateway's success spellings), denied, cancelled. -/
def terminalStatuses : List String :=
  ["completed", "captured", "succeeded", "success", "paid", "denied", "cancelled"]

/-- The `__meta` fields of the `raw` JSONB column that the service reads. -/
structure RawMeta where
  reason : Option String
  changeTo : Option String
  clientTempId : Option String
  createdAtMeta : Option Nat
deriving Repr, DecidableEq

/-- A stored gateway response: it carries none of the `__meta` fields. -/
def RawMeta.gateway : RawMeta := ⟨none, none, none, none⟩

/-- One row of the `payments` table (`Payment` entity). -/
structure PaymentRow where
  id : Nat
  user_id : Option Nat
  plan : Option String
  billingPeriod : Option String
  amount : Int
  currency : String
  paypalOrderId : Option String
  paypalCaptureId : Option String
  status : String
  payerEmail : Option String
  payerName : Option String
  clientTempId : Option String
  raw : Option RawMeta
  createdAtMinute : Option Nat
  createdAt : Nat
  updatedAt : Nat
deriving Repr, DecidableEq

/-- One row of the `user` table (the fields the payments service touches). -/
structure UserRow where
  id : Nat
  plan : Option String
  plan_expiry : Option Nat
deriving Repr, DecidableEq

/-- The payments store: rows plus the next `PrimaryGeneratedColumn` value. -/
structure Store where
  rows : List PaymentRow
  nextId : Nat
deriving Repr, DecidableEq

/-- Unique-index conflict on one nullable column: PostgreSQL unique indexes
treat NULLs as distinct, so only two equal non-null values conflict. -/
def optConflict {α : Type} [DecidableEq α] (a b : Option α) : Bool :=
  match a, b with
  | some x, some y => decide (x = y)
  | _, _ => false

/-- Conflict on `ux_payments_user_plan_minute`
(`user_id, plan, billing_period, created_at_minute`). -/
def tupleConflict (r s : PaymentRow) : Bool :=
  optConflict r.user_id s.user_id && optConflict r.plan s.plan &&
    optConflict r.billingPeriod s.billingPeriod &&
    optConflict r.createdAtMinute s.createdAtMinute

/-- Conflict on any of the three unique indexes of the `payments` table. -/
def rowConflict (r s : PaymentRow) : Bool :=
  optConflict r.paypalOrderId s.paypalOrderId ||
    optConflict r.paypalCaptureId s.paypalCaptureId || tupleConflict r s

/-- Store-level errors surfaced to the service. -/
inductive DbErr where
  | uniqueViolation
deriving Repr, DecidableEq

/-- Model of `INSERT ... RETURNING *`: assigns the next id and appends, or reports the
unique violation (PG error 23505). -/
def insertRow (st : Store) (mk : Nat → PaymentRow) : Except DbErr (Store × PaymentRow) :=
  if st.rows.any (fun s => rowConflict (mk st.nextId) s) then
    .error .uniqueViolation
  else
    .ok (⟨st.rows ++ [mk st.nextId], st.nextId + 1⟩, mk st.nextId)

/-- Model of `repository.save` on an existing row: replaces the row with the same id,
or reports the unique violation the UPDATE would raise. -/
def saveRow (st : Store) (r : PaymentRow) : Except DbErr Store :=
  if st.rows.any (fun s => s.id ≠ r.id && rowConflict r s) then
    .error .uniqueViolation
  else
    .ok ⟨st.rows.map (fun s => if s.id = r.id then r else s), st.nextId⟩

/-- Model of `repository.delete(id)`. -/
def deleteRow (st : Store) (id : Nat) : Store :=
  ⟨st.rows.filter (fun s => s.id ≠ id), st.nextId⟩

/-- Fold step keeping the row with the larger `createdAt` (ties keep the row
seen first, matching an unspecified database tie order). -/
def pickLater (acc : Option PaymentRow) (r : PaymentRow) : Option PaymentRow :=
  match acc with
  | none => some r
  | some b => if b.createdAt < r.createdAt then some r else some b

/-- Model of a findOne ordered by `created_at DESC` with limit 1: the most
recently created row satisfying the predicate. -/
def latestBy (p : PaymentRow → Bool) (rows : List PaymentRow) : Option PaymentRow :=
  (rows.filter p).foldl pickLater none

/-- Plain `findOne` with no ordering; modelled as the first match. -/
def findOneBy (p : PaymentRow → Bool) (rows : List PaymentRow) : Option PaymentRow :=
  rows.find? p

theorem pickLater_foldl_some (l : List PaymentRow) (b : PaymentRow) :
    ∃ c, l.foldl pickLater (some b) = some c ∧ (c = b ∨ c ∈ l) ∧
      b.createdAt ≤ c.createdAt ∧ ∀ s ∈ l, s.createdAt ≤ c.createdAt := by
  induction l generalizing b with
  | nil => exact ⟨b, rfl, Or.inl rfl, le_refl _, by simp⟩
  | cons r t ih =>
    by_cases hlt : b.createdAt < r.createdAt
    · obtain ⟨c, hc, hmem, hle, hall⟩ := ih r
      refine ⟨c, ?_, ?_, ?_, ?_⟩
      · simpa [pickLater, hlt] using hc
      · rcases hmem with h | h
        · exact Or.inr (by simp [h])
        · exact Or.inr (by simp [h])
      · exact le_trans (le_of_lt hlt) hle
      · intro s hs
        rcases List.mem_cons.mp hs with h | h
        · subst h; exact hle
        · exact hall s h
    · obtain ⟨c, hc, hmem, hle, hall⟩ := ih b
      refine ⟨c, ?_, ?_, hle, ?_⟩
      · simpa [pickLater, hlt] using hc
      · rcases hmem with h | h
        · exact Or.inl h
        · exact Or.inr (by simp [h])
      · intro s hs
        rcases List.mem_cons.mp hs with h | h
        · subst h; exact le_trans (le_of_not_lt hlt) hle
        · exact hall s h

theorem latestBy_eq_none_iff (p : PaymentRow → Bool) (rows : List PaymentRow) :
    latestBy p rows = none ↔ rows.filter p = [] := by
  unfold latestBy
  cases h : rows.filter p with
  | nil => simp
  | cons r t =>
    simp only [List.foldl_cons]
    have hstep : pickLater none r = some r := rfl
    rw [hstep]
    obtain ⟨c, hc, -, -, -⟩ := pickLater_foldl_some t r
    rw [hc]
    simp

theorem latestBy_spec (p : PaymentRow → Bool) (rows : List PaymentRow) (r : PaymentRow)
    (h : latestBy p rows = some r) :
    r ∈ rows ∧ p r = true ∧ ∀ s ∈ rows, p s = true → s.createdAt ≤ r.createdAt := by
  unfold latestBy at h
  cases hf : rows.filter p with
  | nil => rw [hf] at h; simp at h
  | cons r0 t =>
    rw [hf] at h
    simp only [List.foldl_cons] at h
    have hstep : pickLater none r0 = some r0 := rfl
    rw [hstep] at h
    obtain ⟨c, hc, hmem, hle, hall⟩ := pickLater_foldl_some t r0
    rw [hc] at h
    have hcr : c = r := Option.some.inj h
    subst hcr
    have hcfilter : c ∈ rows.filter p := by
      rw [hf]
      rcases hmem with h | h
      · simp [h]
      · simp [h]
    have hcmem := List.mem_filter.mp hcfilter
    refine ⟨hcmem.1, hcmem.2, ?_⟩
    intro s hs hps
    have hsf : s ∈ rows.filter p := List.mem_filter.mpr ⟨hs, hps⟩
    rw [hf] at hsf
    rcases List.mem_cons.mp hsf with h | h
    · subst h; exact hle
    · exact hall s h

theorem latestBy_singleton (p : PaymentRow → Bool) (rows : List PaymentRow) (r : PaymentRow)
    (h : rows.filter p = [r]) : latestBy p rows = some r := by
  unfold latestBy
  rw [h]
  rfl

/-- Service-level error taxonomy.  `conflict` stands for a NestJS
`ConflictException` (HTTP 409); the payments service never imports or throws
it, so no embedded operation constructs this value.  `uniqueViolation` is a
raw PG 23505 escaping uncaught; `http` is an explicit `HttpException`. -/
inductive PayErr where
  | badRequest (msg : String)
  | notFound (msg : String)
  | forbidden (msg : String)
  | conflict (msg : String)
  | uniqueViolation
  | upstreamGateway
  | http (code : Nat) (msg : String)
  | generic (msg : String)
deriving Repr, DecidableEq

/-! ### Access / entitlement projection (`getAccessInfo`) -/

/-- Shape of the access info returned by `getAccessInfo` / `checkAccess`. -/
structure AccessInfo where
  allowed : Bool
  activeSubscription : Bool
  hasSuccessfulPayment : Bool
  plan : Option String
  plan_expiry : Option Nat
  reason : Option String
  pendingAmount : Option (Int × String)
deriving Repr, DecidableEq

/-- Model of `PaymentsService.getAccessInfo`.  `now` is `Date.now()`; `userId = 0`
models the falsy `!userId` guard. -/
def getAccessInfo (users : List UserRow) (st : Store) (now : Nat) (userId : Nat) : AccessInfo :=
  if userId = 0 then
    ⟨false, false, false, none, none, some "invalid_user", none⟩
  else
    match users.find? (fun u => u.id = userId) with
    | none => ⟨false, false, false, none, none, some "user_not_found", none⟩
    | some user =>
      let plan := user.plan.getD "Free"
      let activeSubscription :=
        match user.plan_expiry with
        | some e => decide (now < e)
        | none => false
      let found := latestBy
        (fun r => r.user_id = some userId && paidStatuses.contains r.status) st.rows
      let hasSuccessfulPayment := found.isSome
      let allowed :=
        if strLower plan = "free" then true else activeSubscription || hasSuccessfulPayment
      let pending := latestBy
        (fun r => r.user_id = some userId && pendingStatuses.contains r.status) st.rows
      let pendingAmount :=
        match pending with
        | some p => some (p.amount, p.currency.toUpper)
        | none => none
      ⟨allowed, activeSubscription, hasSuccessfulPayment, some plan, user.plan_expiry,
        none, pendingAmount⟩

/-- The entitlement formula exactly as the specification words it: a free
plan is always allowed; a paid plan is allowed if the stored expiry is
strictly in the future or at least one settled/successful row exists for the
owner.  Written from the spec, to be compared with `getAccessInfo`. -/
def specAllowed (users : List UserRow) (st : Store) (now : Nat) (userId : Nat) : Prop :=
  ∃ u, users.find? (fun v => v.id = userId) = some u ∧
    (strLower (u.plan.getD "Free") = "free" ∨
      (∃ e, u.plan_expiry = some e ∧ now < e) ∨
      (∃ r, r ∈ st.rows ∧ r.user_id = some userId ∧ r.status ∈ paidStatuses))

theorem activeSub_match_iff (pe : Option Nat) (now : Nat) :
    (match pe with
      | some e => decide (now < e)
      | none => false) = true ↔ ∃ e, pe = some e ∧ now < e := by
  cases pe <;> simp

theorem latestBy_isSome_iff (p : PaymentRow → Bool) (rows : List PaymentRow) :
    (latestBy p rows).isSome = true ↔ ∃ r, r ∈ rows ∧ p r = true := by
  constructor
  · intro h
    cases hl : latestBy p rows with
    | none => rw [hl] at h; cases h
    | some r =>
      obtain ⟨hm, hp, -⟩ := latestBy_spec p rows r hl
      exact ⟨r, hm, hp⟩
  · rintro ⟨r, hm, hp⟩
    cases hl : latestBy p rows with
    | some c => rfl
    | none =>
      exfalso
      have hfil := (latestBy_eq_none_iff p rows).mp hl
      have : r ∈ rows.filter p := List.mem_filter.mpr ⟨hm, hp⟩
      rw [hfil] at this
      exact List.not_mem_nil r this

theorem hasPay_find_iff (st : Store) (userId : Nat) :
    (latestBy (fun r => r.user_id = some userId && paidStatuses.contains r.status)
        st.rows).isSome = true ↔
      ∃ r, r ∈ st.rows ∧ r.user_id = some userId ∧ r.status ∈ paidStatuses := by
  rw [latestBy_isSome_iff]
  constructor
  · rintro ⟨r, hr, hp⟩
    simp only [Bool.and_eq_true, decide_eq_true_eq] at hp
    have hm : r.status ∈ paidStatuses := by
      have := hp.2
      simpa using this
    exact ⟨r, hr, hp.1, hm⟩
  · rintro ⟨r, hr, h1, h2⟩
    refine ⟨r, hr, ?_⟩
    simp only [Bool.and_eq_true, decide_eq_true_eq]
    exact ⟨h1, by simpa using h2⟩

/-- C8: for every owner (a valid, non-falsy user id), the entitlement
projection returns `allowed = true` exactly when the owner's plan is the
free plan, or the stored plan expiry is strictly in the future, or at least
one payment row of that owner has a settled/successful status. -/
theorem getAccessInfo_allowed_iff_spec (users : List UserRow) (st : Store) (now : Nat)
    (userId : Nat) (h : userId ≠ 0) :
    (getAccessInfo users st now userId).allowed = true ↔ specAllowed users st now userId := by
  unfold getAccessInfo specAllowed
  rw [if_neg h]
  cases hf : users.find? (fun u => u.id = userId) with
  | none => simp
  | some u =>
    simp only [Option.some.injEq]
    constructor
    · intro hal
      refine ⟨u, rfl, ?_⟩
      by_cases hfree : strLower (u.plan.getD "Free") = "free"
      · exact Or.inl hfree
      · rw [if_neg hfree] at hal
        rcases Bool.or_eq_true_iff.mp hal with hsub | hpay
        · exact Or.inr (Or.inl ((activeSub_match_iff u.plan_expiry now).mp hsub))
        · rcases (hasPay_find_iff st userId).mp hpay with ⟨r, hr, h1, h2⟩
          exact Or.inr (Or.inr ⟨r, hr, h1, h2⟩)
    · rintro ⟨u', hu', hcase⟩
      subst hu'
      rcases hcase with hfree | hsub | hpay
      · rw [if_pos hfree]
      · by_cases hfree : strLower (u.plan.getD "Free") = "free"
        · rw [if_pos hfree]
        · rw [if_neg hfree]
          exact Bool.or_eq_true_iff.mpr
            (Or.inl ((activeSub_match_iff u.plan_expiry now).mpr hsub))
      · by_cases hfree : strLower (u.plan.getD "Free") = "free"
        · rw [if_pos hfree]
        · rw [if_neg hfree]
          exact Bool.or_eq_true_iff.mpr (Or.inr ((hasPay_find_iff st userId).mpr hpay))

/-- Witness for C8 at a concrete input: user 7 has a paid plan that is
expired, but owns one completed row, so access is allowed. -/
theorem getAccessInfo_allowed_iff_spec_witness :
    (7 : Nat) ≠ 0 ∧
      ((getAccessInfo [⟨7, some "Pro", some 50⟩]
          ⟨[⟨1, some 7, some "Pro", some "monthly", 1299, "USD", some "O1", some "C1",
              "completed", none, none, none, none, some 60000, 90000, 90000⟩], 2⟩
          100 7).allowed = true ↔
        specAllowed [⟨7, some "Pro", some 50⟩]
          ⟨[⟨1, some 7, some "Pro", some "monthly", 1299, "USD", some "O1", some "C1",
              "completed", none, none, none, none, some 60000, 90000, 90000⟩], 2⟩
          100 7) :=
  ⟨by decide, getAccessInfo_allowed_iff_spec _ _ 100 7 (by decide)⟩

/-! ### Deletion (`deletePaymentForUser`, `clearPendingForUser`) -/

/-- Model of `PaymentsService.deletePaymentForUser`: ownership is checked
(`payment.user_id !== uid` raises Forbidden), the row's status is not. -/
def deletePaymentForUser (st : Store) (userId : Nat) (paymentId : Nat) :
    Except PayErr (Store × Bool) :=
  if userId = 0 then .error (.badRequest "Invalid user id")
  else if paymentId = 0 then .error (.badRequest "Invalid payment id")
  else
    match findOneBy (fun r => r.id = paymentId) st.rows with
    | none => .ok (st, false)
    | some p =>
      if p.user_id = some userId then .ok (deleteRow st paymentId, true)
      else .error (.forbidden "Not allowed to delete this payment")

/-- Model of `PaymentsService.clearPendingForUser`: bulk-deletes the rows with
`COALESCE(user_id, 0) = uid` whose status is pending-like. -/
def clearPendingForUser (st : Store) (userId : Nat) : Except PayErr (Store × Nat) :=
  if userId = 0 then .error (.badRequest "Invalid user id")
  else
    let pred := fun r =>
      (r.user_id.getD 0 = userId) && pendingStatuses.contains r.status
    .ok (⟨st.rows.filter (fun r => !pred r), st.nextId⟩, (st.rows.filter pred).length)

/-- C9 counterexample: user 1 owns row 5, whose status `"completed"` is
terminal, yet `deletePaymentForUser` hard-deletes it — the claim that a row
in a terminal status is never hard-deleted is false on the code. -/
theorem deletePaymentForUser_deletes_terminal_cx :
    deletePaymentForUser
        ⟨[⟨5, some 1, some "Pro", some "monthly", 1299, "USD", some "O1", some "C1",
            "completed", none, none, none, none, some 60000, 90000, 90000⟩], 6⟩
        1 5 = .ok (⟨[], 6⟩, true) ∧ "completed" ∈ terminalStatuses := by
  constructor
  · rfl
  · decide

/-- C9 amended: deletion is scoped to the owning user — a row owned by a
different user (or by nobody) is rejected with Forbidden — but it is not
restricted to non-terminal rows: `deletePaymentForUser` removes a row of any
status, terminal included; only the bulk `clearPendingForUser` is restricted
to pending-like rows, so terminal rows survive it. -/
theorem deletePaymentForUser_owner_scoped (st : Store) (uid pid : Nat)
    (hu : uid ≠ 0) (hp : pid ≠ 0) :
    (∀ p, findOneBy (fun r => r.id = pid) st.rows = some p → p.user_id ≠ some uid →
        deletePaymentForUser st uid pid =
          .error (.forbidden "Not allowed to delete this payment")) ∧
      (∀ p, findOneBy (fun r => r.id = pid) st.rows = some p → p.user_id = some uid →
        deletePaymentForUser st uid pid = .ok (deleteRow st pid, true)) ∧
      (∀ stres cnt, clearPendingForUser st uid = .ok (stres, cnt) →
        ∀ r, r ∈ st.rows → r.status ∉ pendingStatuses → r ∈ stres.rows) := by
  refine ⟨?_, ?_, ?_⟩
  · intro p hfind hown
    unfold deletePaymentForUser
    rw [if_neg hu, if_neg hp, hfind]
    exact if_neg hown
  · intro p hfind hown
    unfold deletePaymentForUser
    rw [if_neg hu, if_neg hp, hfind]
    exact if_pos hown
  · intro stres cnt hclear r hr hterm
    unfold clearPendingForUser at hclear
    rw [if_neg hu] at hclear
    cases hclear
    refine List.mem_filter.mpr ⟨hr, ?_⟩
    simp only [Bool.not_eq_true', Bool.and_eq_false_iff]
    right
    simpa using hterm

/-- Witness for C9's amended theorem: another user's row is rejected with
Forbidden, the owner's terminal row is deleted, and a terminal row survives
`clearPendingForUser`. -/
theorem deletePaymentForUser_owner_scoped_witness :
    deletePaymentForUser
        ⟨[⟨5, some 2, some "Pro", some "monthly", 1299, "USD", none, none,
            "pending", none, none, none, none, some 60000, 90000, 90000⟩], 6⟩
        1 5 = .error (.forbidden "Not allowed to delete this payment") := by
  have h := (deletePaymentForUser_owner_scoped
    ⟨[⟨5, some 2, some "Pro", some "monthly", 1299, "USD", none, none,
        "pending", none, none, none, none, some 60000, 90000, 90000⟩], 6⟩
    1 5 (by decide) (by decide)).1
  exact h _ rfl (by decide)

/-! ### Authenticated order attach (`attachOrderToPayment`) -/

/-- Model of `PaymentsService.attachOrderToPayment`: loads the row by id, checks
ownership, sets `paypalOrderId`, overwrites `raw` when one is supplied,
re-derives `created_at`/`created_at_minute` from `raw.__meta.createdAt`, and
saves.  A unique violation raised by the save (another row already owns the
order id) is not caught anywhere in the service: it escapes as a raw store
error, not as a NestJS ConflictException. -/
def attachFinish (st : Store) (p3 : PaymentRow) : Except PayErr (Store × PaymentRow) :=
  match saveRow st p3 with
  | .ok st' => .ok (st', p3)
  | .error _ => .error .uniqueViolation

def attachOrderToPayment (st : Store) (now : Nat) (userId : Nat) (paymentId : Nat)
    (orderID : String) (raw : Option RawMeta) : Except PayErr (Store × PaymentRow) :=
  if userId = 0 then .error (.badRequest "Invalid user id")
  else if paymentId = 0 then .error (.badRequest "Invalid paymentId")
  else
    match findOneBy (fun r => r.id = paymentId) st.rows with
    | none => .error (.notFound "Payment not found")
    | some p =>
      if p.user_id = some userId then
        let p1 := { p with paypalOrderId := some orderID, raw := jsCoalesce raw p.raw }
        let p2 :=
          match p1.raw with
          | some m =>
            match m.createdAtMeta with
            | some t => { p1 with createdAt := t, createdAtMinute := some (minuteFloor t) }
            | none => p1
          | none => p1
        attachFinish st { p2 with updatedAt := now }
      else .error (.notFound "Payment not found for user")

/-- Does a service call fail with a ConflictException? -/
def isConflictErr {α : Type} : Except PayErr α → Bool
  | .error (.conflict _) => true
  | _ => false

/-- C2 counterexample: order id `"X"` is already bound to row 1; attaching it
to row 2 fails, but with an uncaught store unique violation, not with a
`ConflictError`, contradicting the claimed error type. -/
theorem attachOrder_duplicate_not_conflict_cx :
    attachOrderToPayment
        ⟨[⟨1, some 1, some "Pro", some "monthly", 1299, "USD", some "X", none,
            "pending", none, none, none, none, some 0, 0, 0⟩,
          ⟨2, some 1, some "Tutor", some "monthly", 2499, "USD", none, none,
            "pending", none, none, none, none, some 60000, 60000, 60000⟩], 3⟩
        120000 1 2 "X" none = .error .uniqueViolation ∧
      isConflictErr (attachOrderToPayment
        ⟨[⟨1, some 1, some "Pro", some "monthly", 1299, "USD", some "X", none,
            "pending", none, none, none, none, some 0, 0, 0⟩,
          ⟨2, some 1, some "Tutor", some "monthly", 2499, "USD", none, none,
            "pending", none, none, none, none, some 60000, 60000, 60000⟩], 3⟩
        120000 1 2 "X" none) = false := by
  constructor
  · rfl
  · rfl

/-- C2 amended: attaching a gateway order id that another row already owns
fails on the second attempt — but with the store's unique-violation error
escaping uncaught (surfaced by the controller as a generic 500), not with a
`ConflictError`; no modified store is returned, so the first row's
`gatewayOrderId` is unchanged. -/
theorem attachOrder_duplicate_unique_violation (st : Store) (now uid pid : Nat)
    (x : String) (r1 r2 : PaymentRow)
    (hu : uid ≠ 0) (hp : pid ≠ 0)
    (h1 : r1 ∈ st.rows) (hr1o : r1.paypalOrderId = some x)
    (hfind : findOneBy (fun r => r.id = pid) st.rows = some r2)
    (hne : r1.id ≠ r2.id) (hown : r2.user_id = some uid) :
    attachOrderToPayment st now uid pid x none = .error .uniqueViolation := by
  have hfinish : ∀ p3 : PaymentRow, r1.id ≠ p3.id → rowConflict p3 r1 = true →
      attachFinish st p3 = .error .uniqueViolation := by
    intro p3 hid hc
    unfold attachFinish saveRow
    rw [if_pos]
    refine List.any_eq_true.mpr ⟨r1, h1, ?_⟩
    simp [hid, hc]
  unfold attachOrderToPayment
  rw [if_neg hu, if_neg hp, hfind]
  simp only [if_pos hown]
  cases hraw : (jsCoalesce none r2.raw) with
  | none =>
    simp only [hraw]
    apply hfinish
    · simpa using hne
    · simp [rowConflict, optConflict, hr1o]
  | some m =>
    cases hmeta : m.createdAtMeta with
    | none =>
      simp only [hraw, hmeta]
      apply hfinish
      · simpa using hne
      · simp [rowConflict, optConflict, hr1o]
    | some t =>
      simp only [hraw, hmeta]
      apply hfinish
      · simpa using hne
      · simp [rowConflict, optConflict, hr1o]

/-- Witness for C2's amended theorem at the counterexample's store. -/
theorem attachOrder_duplicate_unique_violation_witness :
    attachOrderToPayment
        ⟨[⟨1, some 1, some "Pro", some "monthly", 1299, "USD", some "X", none,
            "pending", none, none, none, none, some 0, 0, 0⟩,
          ⟨2, some 2, some "Tutor", some "monthly", 2499, "USD", none, none,
            "pending", none, none, none, none, some 60000, 60000, 60000⟩], 3⟩
        120000 2 2 "X" none = .error .uniqueViolation :=
  attachOrder_duplicate_unique_violation _ 120000 2 2 "X"
    ⟨1, some 1, some "Pro", some "monthly", 1299, "USD", some "X", none,
      "pending", none, none, none, none, some 0, 0, 0⟩
    ⟨2, some 2, some "Tutor", some "monthly", 2499, "USD", none, none,
      "pending", none, none, none, none, some 60000, 60000, 60000⟩
    (by decide) (by decide) (by simp) rfl rfl (by decide) rfl

/-! ### Gateway responses and the correlation fallbacks -/

/-- The fields the service reads out of a PayPal order/capture response
(`captureOrderOnPayPal`, `getOrderOnPayPal`).  `cap*` fields come from
`purchase_units[0].payments.captures[0]`, `pu*` fields from
`purchase_units[0]`, `top*`/plain fields from the top level. -/
structure GatewayResp where
  status : Option String
  capId : Option String
  capStatus : Option String
  capCreateTime : Option Nat
  capAmount : Option Int
  capCurrency : Option String
  puAmount : Option Int
  puCurrency : Option String
  refId : Option String
  invoiceId : Option String
  metaClientTempId : Option String
  topAmount : Option Int
  createTime : Option Nat
  updateTime : Option Nat
  payerEmail : Option String
  payerGivenName : Option String
  payerSurname : Option String
deriving Repr, DecidableEq

/-- Computes the payer display name: given name plus surname when the given
name is truthy (an empty given name is falsy in JS), otherwise null. -/
def payerNameOf (g : GatewayResp) : Option String :=
  match g.payerGivenName with
  | some gn => if gn = "" then none else some (gn ++ " " ++ g.payerSurname.getD "")
  | none => none

/-- JS truthiness of a nullable numeric id (`0`, `null`, `undefined` are
falsy). -/
def optNatTruthy : Option Nat → Bool
  | some u => decide (u ≠ 0)
  | none => false

/-- Model of `PaymentsService.tryAttachToPending` with `paymentRow = null` (the only
way the service calls it): four lookups in order — gateway order id, client
temp id taken from the capture result's metadata, minute bucket + amount
(with no status or owner filter), and finally the requesting user's most
recent pending-like row. -/
def tryAttachToPending (st : Store) (orderId : Option String) (cr : GatewayResp)
    (uid : Option Nat) : Option PaymentRow :=
  let byOrder :=
    match orderId with
    | some oid => findOneBy (fun r => r.paypalOrderId = some oid) st.rows
    | none => none
  match byOrder with
  | some r => some r
  | none =>
    let metaClientTemp := jsCoalesce cr.refId (jsCoalesce cr.invoiceId cr.metaClientTempId)
    let byTemp :=
      match metaClientTemp with
      | some ct => latestBy (fun r => r.clientTempId = some ct) st.rows
      | none => none
    match byTemp with
    | some r => some r
    | none =>
      let amountVal := jsCoalesce cr.capAmount (jsCoalesce cr.puAmount cr.topAmount)
      let createdTime := jsCoalesce cr.capCreateTime (jsCoalesce cr.createTime cr.updateTime)
      let byHeur :=
        match createdTime, amountVal with
        | some t, some a =>
          latestBy (fun r => r.createdAtMinute = some (minuteFloor t) && r.amount = a) st.rows
        | _, _ => none
      match byHeur with
      | some r => some r
      | none =>
        match uid with
        | some u =>
          if u ≠ 0 then
            latestBy (fun r => r.user_id = some u && pendingStatuses.contains r.status) st.rows
          else none
        | none => none

/-- C10: when the authenticated capture path finds no row by gateway order
id, client correlation token, or the minute-bucket + amount heuristic, it
falls back to the requesting user's most recent pending-like row — the
selection predicate mentions only the owner and the pending statuses, so the
row's plan, amount and creation time are not constrained. -/
theorem tryAttachToPending_user_fallback (st : Store) (orderId : Option String)
    (cr : GatewayResp) (u : Nat) (hu : u ≠ 0)
    (hord : ∀ oid, orderId = some oid →
      findOneBy (fun r => r.paypalOrderId = some oid) st.rows = none)
    (htemp : ∀ ct, jsCoalesce cr.refId (jsCoalesce cr.invoiceId cr.metaClientTempId) = some ct →
      latestBy (fun r => r.clientTempId = some ct) st.rows = none)
    (hheur : ∀ t a, jsCoalesce cr.capCreateTime (jsCoalesce cr.createTime cr.updateTime) = some t →
      jsCoalesce cr.capAmount (jsCoalesce cr.puAmount cr.topAmount) = some a →
      latestBy (fun r => r.createdAtMinute = some (minuteFloor t) && r.amount = a) st.rows = none) :
    tryAttachToPending st orderId cr (some u) =
      latestBy (fun r => r.user_id = some u && pendingStatuses.contains r.status) st.rows := by
  have h2 : (match jsCoalesce cr.refId (jsCoalesce cr.invoiceId cr.metaClientTempId) with
      | some ct => latestBy (fun r => r.clientTempId = some ct) st.rows
      | none => none) = (none : Option PaymentRow) := by
    cases hm : jsCoalesce cr.refId (jsCoalesce cr.invoiceId cr.metaClientTempId) with
    | none => rfl
    | some ct => exact htemp ct hm
  have h3 : (match jsCoalesce cr.capCreateTime (jsCoalesce cr.createTime cr.updateTime),
        jsCoalesce cr.capAmount (jsCoalesce cr.puAmount cr.topAmount) with
      | some t, some a =>
        latestBy (fun r => r.createdAtMinute = some (minuteFloor t) && r.amount = a) st.rows
      | _, _ => none) = (none : Option PaymentRow) := by
    cases ht : jsCoalesce cr.capCreateTime (jsCoalesce cr.createTime cr.updateTime) with
    | none => rfl
    | some t =>
      cases ha : jsCoalesce cr.capAmount (jsCoalesce cr.puAmount cr.topAmount) with
      | none => rfl
      | some a => exact hheur t a ht ha
  unfold tryAttachToPending
  revert hord
  cases orderId with
  | none =>
    intro _
    simp only [h2, h3]
    rw [if_pos hu]
  | some oid =>
    intro hord
    have h1 := hord oid rfl
    simp only [h1, h2, h3]
    rw [if_pos hu]

/-- Witness for C10: with an empty capture result and no order-id match, the
fallback returns user 3's most recent pending row even though its plan and
amount have nothing to do with the capture. -/
theorem tryAttachToPending_user_fallback_witness :
    tryAttachToPending
        ⟨[⟨1, some 3, some "Tutor", some "yearly", 19900, "USD", none, none,
            "pending", none, none, none, none, some 0, 10, 10⟩,
          ⟨2, some 3, some "Pro", some "monthly", 1299, "USD", none, none,
            "created", none, none, none, none, some 60000, 60010, 60010⟩], 3⟩
        (some "NO-SUCH-ORDER")
        ⟨none, none, none, none, none, none, none, none, none, none, none, none,
          none, none, none, none, none⟩
        (some 3) =
      some ⟨2, some 3, some "Pro", some "monthly", 1299, "USD", none, none,
        "created", none, none, none, none, some 60000, 60010, 60010⟩ := by
  rw [tryAttachToPending_user_fallback _ _ _ 3 (by decide)
    (by intro oid h; cases h; rfl)
    (by intro ct h; cases h)
    (by intro t a h1 h2; cases h1)]
  rfl

/-! ### Synchronous capture (`captureOrder`) -/

/-- The entitlement refresh at the end of `captureOrder`: whenever the row's
status is in the final set, the user's plan is set from the row and the plan
expiry is recomputed as now + 30 days (monthly) or now + one year (yearly,
modelled as 365 days), with no check of whether the row was already
terminal before this call. -/
def refreshEntitlement (users : List UserRow) (now : Nat) (uid : Nat)
    (payment : PaymentRow) : List UserRow :=
  if finalStatuses.contains (strLower payment.status) then
    match users.find? (fun u => u.id = uid) with
    | some user =>
      let planName := jsOrStr payment.plan (jsOrStr user.plan "Pro")
      let billing := jsOrStr payment.billingPeriod "monthly"
      let expiry : Option Nat :=
        if billing = "monthly" then some (now + 30 * dayMs)
        else if billing = "yearly" then some (now + 365 * dayMs)
        else none
      users.map (fun u =>
        if u.id = uid then { u with plan := some planName, plan_expiry := expiry } else u)
    | none => users
  else users

/-- Model of `PaymentsService.captureOrder`: captures the order at the gateway, finds
or creates the ledger row, overwrites its capture id / status / amount from
the capture result, and refreshes the user's entitlement when the resulting
status is final.  `gatewayCapture` is the `captureOrderOnPayPal` oracle. -/
def captureOrder (st : Store) (users : List UserRow)
    (gatewayCapture : String → Option GatewayResp) (now : Nat) (userId : Nat)
    (orderID : String) : Except PayErr (Store × List UserRow × PaymentRow) :=
  if userId = 0 then .error (.badRequest "Invalid user id")
  else if orderID = "" then .error (.badRequest "Missing order id")
  else
    match gatewayCapture orderID with
    | none => .error .upstreamGateway
    | some cr =>
      let captureId := cr.capId
      let status := (jsCoalesce cr.capStatus cr.status).getD "COMPLETED"
      let amountVal := jsCoalesce cr.capAmount cr.puAmount
      let currency := (jsCoalesce cr.capCurrency cr.puCurrency).getD "USD"
      let payment0 := findOneBy (fun r => r.paypalOrderId = some orderID) st.rows
      let payment1 :=
        match payment0 with
        | some p => some p
        | none => tryAttachToPending st (some orderID) cr (some userId)
      match payment1 with
      | none =>
        match insertRow st (fun id =>
          { id := id, user_id := some userId, plan := some "Pro", billingPeriod := none,
            amount := amountVal.getD 0, currency := currency,
            paypalOrderId := some orderID, paypalCaptureId := captureId,
            status := strLower status, payerEmail := cr.payerEmail,
            payerName := payerNameOf cr, clientTempId := none,
            raw := some RawMeta.gateway,
            createdAtMinute := some (minuteFloor now), createdAt := now,
            updatedAt := now }) with
        | .error _ => .error .uniqueViolation
        | .ok (st', p) => .ok (st', refreshEntitlement users now userId p, p)
      | some p =>
        let p' := { p with
          paypalCaptureId := jsCoalesce captureId p.paypalCaptureId,
          status := strLower status,
          amount := amountVal.getD p.amount,
          currency := currency,
          raw := some RawMeta.gateway,
          payerEmail := jsCoalesce cr.payerEmail p.payerEmail,
          payerName := jsCoalesce (payerNameOf cr) p.payerName,
          updatedAt := now }
        match saveRow st p' with
        | .error _ => .error .uniqueViolation
        | .ok st' => .ok (st', refreshEntitlement users now userId p', p')

/-- C4 failing input: row 1 (`O1`/`C1`) is already terminal with status
`"completed"` and user 1's expiry stands at 1000; a redelivered capture call
for the same capture recomputes the expiry as now + 30 days — the
entitlement is extended a second time instead of being a strict no-op. -/
theorem captureOrder_redelivery_recomputes_expiry_cx :
    (captureOrder
        ⟨[⟨1, some 1, some "Pro", some "monthly", 1299, "USD", some "O1", some "C1",
            "completed", none, none, none, some RawMeta.gateway, some 0, 0, 0⟩], 2⟩
        [⟨1, some "Pro", some 1000⟩]
        (fun oid => if oid = "O1" then
          some ⟨some "COMPLETED", some "C1", some "COMPLETED", some 0, some 1299,
            some "USD", some 1299, some "USD", none, none, none, none, some 0, some 0,
            none, none, none⟩
          else none)
        5000000 1 "O1").map (fun x => x.2.1.map UserRow.plan_expiry) =
      .ok [some (5000000 + 30 * dayMs)] ∧
      some (5000000 + 30 * dayMs) ≠ some 1000 ∧ "completed" ∈ terminalStatuses := by
  refine ⟨rfl, by decide, by decide⟩

/-! ### Webhook reconciler (`handleWebhook`) -/

theorem jsCoalesce_eq_none {α : Type} {a b : Option α} (h : jsCoalesce a b = none) :
    a = none ∧ b = none := by
  cases a with
  | none => exact ⟨rfl, h⟩
  | some x => exact absurd h (by simp [jsCoalesce])

/-- The PayPal event types the webhook reconciler handles. -/
def captureEventTypes : List String :=
  ["CHECKOUT.ORDER.APPROVED", "PAYMENT.CAPTURE.COMPLETED", "PAYMENT.CAPTURE.DENIED",
    "PAYMENT.CAPTURE.PENDING"]

/-- The fields the webhook handler reads from the notification envelope.
`resStatus` and `resAmount` are carried by gateway payloads; the live code
path never reads them (`resStatus` only occurs in a branch that is dead,
because `orderId` already fell back to `resource.id`). -/
structure WebhookEvent where
  event_type : Option String
  typeAlt : Option String
  resSuppOrderId : Option String
  resOrderId : Option String
  resId : Option String
  resStatus : Option String
  resAmount : Option Int
deriving Repr, DecidableEq

/-- The minute-bucket + amount heuristic of the webhook reconciler: the most
recent pending-like row in the bucket with the same amount (`ORDER BY
created_at DESC LIMIT 1`), accepted when that single row has a truthy
owner.  Several qualifying rows are not detected as ambiguous. -/
def webhookHeuristicCandidate (st : Store) (minuteB : Nat) (amt : Int) : Option PaymentRow :=
  match latestBy (fun r => (r.createdAtMinute = some minuteB) && (r.amount = amt) &&
      pendingStatuses.contains r.status) st.rows with
  | some c => if optNatTruthy c.user_id then some c else none
  | none => none

/-- Model of `PaymentsService.handleWebhook`: the webhook reconciler.  All failures
are caught and swallowed (the function always returns a state); for the
handled event types the authoritative order state is re-fetched through
`gatewayOrder` (the `getOrderOnPayPal` oracle) before any row is written. -/
def handleWebhook (st : Store) (users : List UserRow)
    (gatewayOrder : String → Option GatewayResp) (now : Nat) (event : WebhookEvent) :
    Store × List UserRow :=
  match jsCoalesce event.event_type event.typeAlt with
  | none => (st, users)
  | some eventType =>
    if captureEventTypes.contains eventType then
      match jsCoalesce event.resSuppOrderId (jsCoalesce event.resOrderId event.resId) with
      | none =>
        match event.resId with
        | some captureId =>
          (match findOneBy (fun r => r.paypalCaptureId = some captureId) st.rows with
            | some payment =>
              let p' := { payment with
                status := strLower
                  ((jsCoalesce event.resStatus (some payment.status)).getD "completed"),
                raw := some RawMeta.gateway, updatedAt := now }
              match saveRow st p' with
              | .ok st' => (st', users)
              | .error _ => (st, users)
            | none => (st, users))
        | none => (st, users)
      | some oid =>
        match gatewayOrder oid with
        | none => (st, users)
        | some order =>
          match findOneBy (fun r => r.paypalOrderId = some oid) st.rows with
          | some payment =>
            let p' := { payment with
              paypalCaptureId := jsCoalesce order.capId payment.paypalCaptureId,
              status := strLower ((jsCoalesce order.capStatus
                (jsCoalesce order.status (some payment.status))).getD "completed"),
              payerEmail := jsCoalesce order.payerEmail payment.payerEmail,
              payerName := jsCoalesce (payerNameOf order) payment.payerName,
              raw := some RawMeta.gateway, updatedAt := now }
            match saveRow st p' with
            | .ok st' => (st', users)
            | .error _ => (st, users)
          | none =>
            let amt := order.puAmount
            let currency := order.puCurrency.getD "USD"
            let createdAt := (jsCoalesce order.capCreateTime
              (jsCoalesce order.createTime order.updateTime)).getD now
            let minuteB := minuteFloor createdAt
            match webhookHeuristicCandidate st minuteB (amt.getD 0) with
            | some fp =>
              let fp' := { fp with
                paypalOrderId := some oid,
                paypalCaptureId := jsCoalesce order.capId fp.paypalCaptureId,
                status := strLower ((jsCoalesce order.capStatus
                  (jsCoalesce order.status (some fp.status))).getD "completed"),
                payerEmail := jsCoalesce order.payerEmail fp.payerEmail,
                payerName := jsCoalesce (payerNameOf order) fp.payerName,
                raw := some RawMeta.gateway, updatedAt := now }
              match saveRow st fp' with
              | .error _ => (st, users)
              | .ok st' =>
                match fp.user_id with
                | some uid =>
                  match users.find? (fun u => u.id = uid) with
                  | some user =>
                    let planName := jsOrStr fp.plan (jsOrStr user.plan "Pro")
                    let billing := jsOrStr fp.billingPeriod "monthly"
                    let expiry : Option Nat :=
                      if billing = "monthly" then some (now + 30 * dayMs)
                      else if billing = "yearly" then some (now + 365 * dayMs)
                      else none
                    (st', users.map (fun u =>
                      if u.id = uid then
                        { u with plan := some planName, plan_expiry := expiry }
                      else u))
                  | none => (st', users)
                | none => (st', users)
            | none =>
              match insertRow st (fun id =>
                { id := id, user_id := none, plan := none, billingPeriod := none,
                  amount := amt.getD 0, currency := currency,
                  paypalOrderId := some oid, paypalCaptureId := order.capId,
                  status := strLower ((jsCoalesce order.capStatus order.status).getD "completed"),
                  payerEmail := order.payerEmail, payerName := payerNameOf order,
                  clientTempId := none, raw := some RawMeta.gateway,
                  createdAtMinute := some minuteB, createdAt := now, updatedAt := now }) with
              | .ok (st', _) => (st', users)
              | .error _ => (st, users)
    else (st, users)

/-- C3 failing input: row `O1`/`C1` already holds the terminal status
`"completed"`; a redelivered `PAYMENT.CAPTURE.PENDING` webhook, whose
gateway re-fetch still reports the capture as `PENDING`, overwrites the
status with `"pending"` — the row regresses from a terminal status back to
pending, violating the monotonicity invariant. -/
theorem handleWebhook_regresses_terminal_cx :
    ((handleWebhook
        ⟨[⟨1, some 1, some "Pro", some "monthly", 1299, "USD", some "O1", some "C1",
            "completed", none, none, none, some RawMeta.gateway, some 0, 0, 0⟩], 2⟩
        [⟨1, some "Pro", some 1000⟩]
        (fun oid => if oid = "O1" then
          some ⟨some "CREATED", some "C1", some "PENDING", some 0, some 1299, some "USD",
            some 1299, some "USD", none, none, none, none, some 0, some 0, none, none,
            none⟩
          else none)
        7000000
        ⟨some "PAYMENT.CAPTURE.PENDING", none, some "O1", none, some "C1", some "PENDING",
          some 1299⟩).1.rows.map PaymentRow.status) = ["pending"] ∧
      "completed" ∈ terminalStatuses ∧ "pending" ∈ pendingStatuses := by
  refine ⟨rfl, by decide, by decide⟩

/-- C5 counterexample: rows 1 and 2 both qualify for the heuristic (same
minute bucket 0, same amount 1299, pending status, owned), so the claim
requires "no match" — an anonymous orphan insert.  Instead the reconciler
picks the more recent row 2 and settles it: the store keeps two rows and
row 2 now carries the order id and status `"completed"`. -/
theorem handleWebhook_ambiguous_picks_one_cx :
    ((handleWebhook
        ⟨[⟨1, some 1, some "Pro", some "monthly", 1299, "USD", none, none,
            "pending", none, none, none, none, some 0, 10, 10⟩,
          ⟨2, some 2, some "Pro", some "monthly", 1299, "USD", none, none,
            "pending", none, none, none, none, some 0, 20, 20⟩], 3⟩
        [⟨1, some "Free", none⟩, ⟨2, some "Free", none⟩]
        (fun oid => if oid = "O9" then
          some ⟨some "COMPLETED", some "C9", some "COMPLETED", some 30, some 1299,
            some "USD", some 1299, some "USD", none, none, none, none, some 30, some 30,
            none, none, none⟩
          else none)
        9000000
        ⟨some "PAYMENT.CAPTURE.COMPLETED", none, some "O9", none, some "C9",
          some "COMPLETED", some 1299⟩).1.rows.map
        (fun r => (r.id, r.status, r.paypalOrderId))) =
      [(1, "pending", none), (2, "completed", some "O9")] := by
  rfl

/-- C5 amended: when more than one owned pending-like row matches the
minute-bucket + amount heuristic, the reconciler does not treat the
ambiguity as "no match": it picks the single most recently created
qualifying row (`ORDER BY created_at DESC LIMIT 1`). -/
theorem webhookHeuristicCandidate_ambiguous_picks_latest (st : Store) (mb : Nat) (amt : Int)
    (r1 r2 : PaymentRow) (h1 : r1 ∈ st.rows) (h2 : r2 ∈ st.rows) (hne : r1 ≠ r2)
    (hq1 : ((r1.createdAtMinute = some mb) && (r1.amount = amt) &&
      pendingStatuses.contains r1.status) = true)
    (hq2 : ((r2.createdAtMinute = some mb) && (r2.amount = amt) &&
      pendingStatuses.contains r2.status) = true)
    (howned : ∀ s ∈ st.rows, ((s.createdAtMinute = some mb) && (s.amount = amt) &&
      pendingStatuses.contains s.status) = true → optNatTruthy s.user_id = true) :
    ∃ c, webhookHeuristicCandidate st mb amt = some c ∧ c ∈ st.rows ∧
      ((c.createdAtMinute = some mb) && (c.amount = amt) &&
        pendingStatuses.contains c.status) = true ∧
      ∀ s ∈ st.rows, ((s.createdAtMinute = some mb) && (s.amount = amt) &&
        pendingStatuses.contains s.status) = true → s.createdAt ≤ c.createdAt := by
  cases hl : latestBy (fun r => (r.createdAtMinute = some mb) && (r.amount = amt) &&
      pendingStatuses.contains r.status) st.rows with
  | none =>
    exfalso
    have hfil := (latestBy_eq_none_iff _ st.rows).mp hl
    have : r1 ∈ st.rows.filter (fun r => (r.createdAtMinute = some mb) && (r.amount = amt) &&
        pendingStatuses.contains r.status) := List.mem_filter.mpr ⟨h1, hq1⟩
    rw [hfil] at this
    exact absurd this (List.not_mem_nil r1)
  | some c =>
    obtain ⟨hcm, hcq, hcmax⟩ := latestBy_spec _ st.rows c hl
    refine ⟨c, ?_, hcm, hcq, hcmax⟩
    unfold webhookHeuristicCandidate
    rw [hl]
    exact if_pos (howned c hcm hcq)

/-- Witness for C5's amended theorem at the counterexample's store: the
heuristic returns row 2, the most recent of the two qualifying rows. -/
theorem webhookHeuristicCandidate_ambiguous_picks_latest_witness :
    ∃ c, webhookHeuristicCandidate
        ⟨[⟨1, some 1, some "Pro", some "monthly", 1299, "USD", none, none,
            "pending", none, none, none, none, some 0, 10, 10⟩,
          ⟨2, some 2, some "Pro", some "monthly", 1299, "USD", none, none,
            "pending", none, none, none, none, some 0, 20, 20⟩], 3⟩
        0 1299 = some c ∧
      c ∈ (⟨[⟨1, some 1, some "Pro", some "monthly", 1299, "USD", none, none,
            "pending", none, none, none, none, some 0, 10, 10⟩,
          ⟨2, some 2, some "Pro", some "monthly", 1299, "USD", none, none,
            "pending", none, none, none, none, some 0, 20, 20⟩], 3⟩ : Store).rows ∧
      ((c.createdAtMinute = some 0) && (c.amount = 1299) &&
        pendingStatuses.contains c.status) = true ∧
      ∀ s ∈ (⟨[⟨1, some 1, some "Pro", some "monthly", 1299, "USD", none, none,
            "pending", none, none, none, none, some 0, 10, 10⟩,
          ⟨2, some 2, some "Pro", some "monthly", 1299, "USD", none, none,
            "pending", none, none, none, none, some 0, 20, 20⟩], 3⟩ : Store).rows,
        ((s.createdAtMinute = some 0) && (s.amount = 1299) &&
          pendingStatuses.contains s.status) = true → s.createdAt ≤ c.createdAt :=
  webhookHeuristicCandidate_ambiguous_picks_latest _ 0 1299
    ⟨1, some 1, some "Pro", some "monthly", 1299, "USD", none, none,
      "pending", none, none, none, none, some 0, 10, 10⟩
    ⟨2, some 2, some "Pro", some "monthly", 1299, "USD", none, none,
      "pending", none, none, none, none, some 0, 20, 20⟩
    (by simp) (by simp) (by decide) (by decide) (by decide)
    (by decide)

/-- C6: the webhook reconciler never takes status or amount from the
notification payload.  Two envelopes with the same event type and the same
extracted identifiers produce the same result even if their payload status
and amount fields differ arbitrarily (the ledger writes are derived from the
gateway re-fetch alone); and when the gateway re-fetch is unavailable,
nothing is written at all. -/
theorem handleWebhook_refetch_ignores_payload (st : Store) (users : List UserRow)
    (gw : String → Option GatewayResp) (now : Nat) (e1 e2 : WebhookEvent)
    (htype : jsCoalesce e1.event_type e1.typeAlt = jsCoalesce e2.event_type e2.typeAlt)
    (hsupp : e1.resSuppOrderId = e2.resSuppOrderId)
    (hord : e1.resOrderId = e2.resOrderId)
    (hid : e1.resId = e2.resId) :
    handleWebhook st users gw now e1 = handleWebhook st users gw now e2 ∧
      handleWebhook st users (fun _ => none) now e1 = (st, users) := by
  constructor
  · unfold handleWebhook
    rw [htype, hsupp, hord, hid]
    cases het : jsCoalesce e2.event_type e2.typeAlt with
    | none => rfl
    | some et =>
      by_cases hty : captureEventTypes.contains et = true
      · simp only [hty, if_true]
        cases ho : jsCoalesce e2.resSuppOrderId (jsCoalesce e2.resOrderId e2.resId) with
        | some oid => rfl
        | none =>
          have hrid : e2.resId = none := (jsCoalesce_eq_none (jsCoalesce_eq_none ho).2).2
          rw [hrid]
      · simp only [Bool.not_eq_true] at hty
        simp only [hty]
        rfl
  · unfold handleWebhook
    cases het : jsCoalesce e1.event_type e1.typeAlt with
    | none => rfl
    | some et =>
      by_cases hty : captureEventTypes.contains et = true
      · simp only [hty, if_true]
        cases ho : jsCoalesce e1.resSuppOrderId (jsCoalesce e1.resOrderId e1.resId) with
        | some oid => rfl
        | none =>
          have hrid : e1.resId = none := (jsCoalesce_eq_none (jsCoalesce_eq_none ho).2).2
          rw [hrid]
      · simp only [Bool.not_eq_true] at hty
        simp only [hty]
        rfl

/-- Witness for C6: two `PAYMENT.CAPTURE.COMPLETED` envelopes for order `O1`
whose payload status and amount disagree wildly reconcile identically, and
with the gateway unavailable the store and users are untouched. -/
theorem handleWebhook_refetch_ignores_payload_witness :
    (handleWebhook ⟨[], 1⟩ [] (fun _ => none) 1000
        ⟨some "PAYMENT.CAPTURE.COMPLETED", none, some "O1", none, some "C1",
          some "COMPLETED", some 1299⟩ =
      handleWebhook ⟨[], 1⟩ [] (fun _ => none) 1000
        ⟨some "PAYMENT.CAPTURE.COMPLETED", none, some "O1", none, some "C1",
          some "DENIED", some 999999⟩) ∧
      handleWebhook ⟨[], 1⟩ [] (fun _ => none) 1000
        ⟨some "PAYMENT.CAPTURE.COMPLETED", none, some "O1", none, some "C1",
          some "COMPLETED", some 1299⟩ = (⟨[], 1⟩, []) :=
  handleWebhook_refetch_ignores_payload ⟨[], 1⟩ [] (fun _ => none) 1000
    ⟨some "PAYMENT.CAPTURE.COMPLETED", none, some "O1", none, some "C1",
      some "COMPLETED", some 1299⟩
    ⟨some "PAYMENT.CAPTURE.COMPLETED", none, some "O1", none, some "C1",
      some "DENIED", some 999999⟩
    rfl rfl rfl rfl

theorem insertRow_ok_of_no_conflict (st : Store) (mk : Nat → PaymentRow)
    (h : ∀ r ∈ st.rows, rowConflict (mk st.nextId) r = false) :
    insertRow st mk = .ok (⟨st.rows ++ [mk st.nextId], st.nextId + 1⟩, mk st.nextId) := by
  unfold insertRow
  have hany : st.rows.any (fun s => rowConflict (mk st.nextId) s) = false :=
    List.any_eq_false.mpr (fun r hr => by simp [h r hr])
  simp [hany]

/-- C7: a capture webhook that arrives before any provisional create or
attach ever ran — no row carries the order id, and the minute + amount
heuristic yields no owned candidate — still reconciles without error:
exactly one new ledger row is appended, anonymous (`user_id` null) and
carrying the gateway-reported terminal status, and it is the unique row
holding that order id. -/
theorem handleWebhook_orphan_terminal_row (st : Store) (users : List UserRow)
    (gw : String → Option GatewayResp) (now : Nat) (e : WebhookEvent) (et : String)
    (oid : String) (order : GatewayResp)
    (hev : jsCoalesce e.event_type e.typeAlt = some et)
    (hty : captureEventTypes.contains et = true)
    (hoid : jsCoalesce e.resSuppOrderId (jsCoalesce e.resOrderId e.resId) = some oid)
    (hgw : gw oid = some order)
    (hnoord : ∀ r ∈ st.rows, ¬(r.paypalOrderId = some oid))
    (hheur : webhookHeuristicCandidate st
      (minuteFloor ((jsCoalesce order.capCreateTime
        (jsCoalesce order.createTime order.updateTime)).getD now))
      (order.puAmount.getD 0) = none)
    (hcap : ∀ r ∈ st.rows, optConflict order.capId r.paypalCaptureId = false)
    (hterm : strLower ((jsCoalesce order.capStatus order.status).getD "completed")
      ∈ terminalStatuses) :
    ∃ nr, handleWebhook st users gw now e = (⟨st.rows ++ [nr], st.nextId + 1⟩, users) ∧
      nr.user_id = none ∧ nr.paypalOrderId = some oid ∧ nr.status ∈ terminalStatuses ∧
      ((st.rows ++ [nr]).filter (fun r => r.paypalOrderId = some oid)).length = 1 := by
  have hfind : findOneBy (fun r => r.paypalOrderId = some oid) st.rows = none := by
    unfold findOneBy
    exact List.find?_eq_none.mpr (fun r hr => by simpa using hnoord r hr)
  have hconf : ∀ r ∈ st.rows, rowConflict
      { id := st.nextId, user_id := none, plan := none, billingPeriod := none,
        amount := order.puAmount.getD 0, currency := order.puCurrency.getD "USD",
        paypalOrderId := some oid, paypalCaptureId := order.capId,
        status := strLower ((jsCoalesce order.capStatus order.status).getD "completed"),
        payerEmail := order.payerEmail, payerName := payerNameOf order,
        clientTempId := none, raw := some RawMeta.gateway,
        createdAtMinute := some (minuteFloor ((jsCoalesce order.capCreateTime
          (jsCoalesce order.createTime order.updateTime)).getD now)),
        createdAt := now, updatedAt := now } r = false := by
    intro r hr
    unfold rowConflict tupleConflict
    have h1 : optConflict (some oid) r.paypalOrderId = false := by
      cases hro : r.paypalOrderId with
      | none => rfl
      | some y =>
        have hne := hnoord r hr
        rw [hro] at hne
        simp only [optConflict, decide_eq_false_iff_not]
        intro h
        exact hne (by rw [h])
    have h2 := hcap r hr
    have h3 : optConflict (none : Option Nat) r.user_id = false := rfl
    simp [h1, h2, h3]
  have hins := insertRow_ok_of_no_conflict st
    (fun id =>
      { id := id, user_id := none, plan := none, billingPeriod := none,
        amount := order.puAmount.getD 0, currency := order.puCurrency.getD "USD",
        paypalOrderId := some oid, paypalCaptureId := order.capId,
        status := strLower ((jsCoalesce order.capStatus order.status).getD "completed"),
        payerEmail := order.payerEmail, payerName := payerNameOf order,
        clientTempId := none, raw := some RawMeta.gateway,
        createdAtMinute := some (minuteFloor ((jsCoalesce order.capCreateTime
          (jsCoalesce order.createTime order.updateTime)).getD now)),
        createdAt := now, updatedAt := now }) hconf
  unfold handleWebhook
  rw [hev]
  simp only [hty, if_true, hoid, hgw, hfind, hheur, hins]
  refine ⟨_, rfl, rfl, rfl, hterm, ?_⟩
  rw [List.filter_append]
  have hnil : st.rows.filter (fun r => r.paypalOrderId = some oid) = [] := by
    rw [List.filter_eq_nil_iff]
    intro r hr
    simpa using hnoord r hr
  rw [hnil]
  simp

/-- Witness for C7: a `PAYMENT.CAPTURE.COMPLETED` webhook against an empty
store (the order id arrives via `resource.id`) inserts exactly one
anonymous, completed row. -/
theorem handleWebhook_orphan_terminal_row_witness :
    ∃ nr, handleWebhook ⟨[], 5⟩ []
        (fun oid => if oid = "O7" then
          some ⟨some "COMPLETED", some "C7", some "COMPLETED", some 30, some 1299,
            some "USD", some 1299, some "USD", none, none, none, none, some 30, some 30,
            none, none, none⟩
          else none)
        9000000
        ⟨some "PAYMENT.CAPTURE.COMPLETED", none, none, none, some "O7",
          some "COMPLETED", some 1299⟩ = (⟨[] ++ [nr], 5 + 1⟩, []) ∧
      nr.user_id = none ∧ nr.paypalOrderId = some "O7" ∧ nr.status ∈ terminalStatuses ∧
      ((([] : List PaymentRow) ++ [nr]).filter
        (fun r => r.paypalOrderId = some "O7")).length = 1 :=
  handleWebhook_orphan_terminal_row ⟨[], 5⟩ []
    (fun oid => if oid = "O7" then
      some ⟨some "COMPLETED", some "C7", some "COMPLETED", some 30, some 1299,
        some "USD", some 1299, some "USD", none, none, none, none, some 30, some 30,
        none, none, none⟩
      else none)
    9000000
    ⟨some "PAYMENT.CAPTURE.COMPLETED", none, none, none, some "O7",
      some "COMPLETED", some 1299⟩
    "PAYMENT.CAPTURE.COMPLETED" "O7"
    ⟨some "COMPLETED", some "C7", some "COMPLETED", some 30, some 1299,
      some "USD", some 1299, some "USD", none, none, none, none, some 30, some 30,
      none, none, none⟩
    rfl (by decide) rfl rfl
    (by intro r hr; exact absurd hr (List.not_mem_nil r))
    rfl
    (by intro r hr; exact absurd hr (List.not_mem_nil r))
    (by decide)

/-! ### Provisional create (`createPendingPayment`) under concurrency

Each call is a sequence of atomic store operations — the pre-check query,
the guarded insert, the unique-violation recovery query, the last-resort
fallback query — and concurrent calls interleave those steps arbitrarily.
The store serializes each single operation (read-committed isolation); the
unique indexes of the `payments` table decide races.  The
`ON CONFLICT (client_temp_id)` upsert that precedes all of this targets a
non-unique index, so PostgreSQL rejects it and the service falls through;
it contributes no store operation. -/

/-- The arguments of one `createPendingPayment` call, after the service has
defaulted the plan, resolved the price, and normalised `createdAt`.
`billing = none` is the stored form of an empty billing period. -/
structure CreateArgs where
  uid : Nat
  plan : String
  billing : Option String
  amount : Int
  currency : String
  createdAt : Nat
  clientTempId : Option String
  reason : Option String
deriving Repr, DecidableEq

/-- Billing filter: an empty or null billing period matches rows whose
billing column is NULL, otherwise equality. -/
def billingMatch (rowBilling : Option String) (billing : Option String) : Bool :=
  match billing with
  | none => rowBilling.isNone
  | some b => rowBilling = some b

/-- The row inserted by `createPendingPayment`. -/
def pendingRowOf (a : CreateArgs) (id : Nat) : PaymentRow :=
  { id := id, user_id := some a.uid, plan := some a.plan, billingPeriod := a.billing,
    amount := a.amount, currency := a.currency, paypalOrderId := none,
    paypalCaptureId := none, status := "pending", payerEmail := none, payerName := none,
    clientTempId := a.clientTempId,
    raw := some ⟨some (a.reason.getD "regular"), some a.plan, a.clientTempId,
      some a.createdAt⟩,
    createdAtMinute := some (minuteFloor a.createdAt), createdAt := a.createdAt,
    updatedAt := a.createdAt }

/-- The `findExistingPending` WHERE clause: `COALESCE(user_id, 0) = uid`,
same plan, pending-like status, same minute bucket, matching billing. -/
def fepPred (uid : Nat) (planName : String) (billing : Option String) (minuteB : Nat)
    (p : PaymentRow) : Bool :=
  (p.user_id.getD 0 = uid) && (p.plan = some planName) &&
    pendingStatuses.contains p.status && (p.createdAtMinute = some minuteB) &&
    billingMatch p.billingPeriod billing

/-- Model of `PaymentsService.findExistingPending`. -/
def findExistingPending (st : Store) (uid : Nat) (planName : String)
    (billing : Option String) (createdAt : Nat) : Option PaymentRow :=
  latestBy (fepPred uid planName billing (minuteFloor createdAt)) st.rows

/-- The unique-violation recovery query of `createPendingPayment`: like the
pre-check but with `status = 'pending'` exactly. -/
def recoveryPred (a : CreateArgs) (p : PaymentRow) : Bool :=
  (p.user_id.getD 0 = a.uid) && (p.plan = some a.plan) && (p.status = "pending") &&
    (p.createdAtMinute = some (minuteFloor a.createdAt)) &&
    billingMatch p.billingPeriod a.billing

def conflictRecovery (st : Store) (a : CreateArgs) : Option PaymentRow :=
  latestBy (recoveryPred a) st.rows

/-- The last-resort fallback of `createPendingPayment`: the user's most
recent row for that plan, any status. -/
def createFallback (st : Store) (a : CreateArgs) : Option PaymentRow :=
  latestBy (fun p => (p.user_id = some a.uid) && (p.plan = some a.plan)) st.rows

/-- The claim's correlation key: the columns of
`ux_payments_user_plan_minute` as a row predicate. -/
def hasKey (a : CreateArgs) (r : PaymentRow) : Bool :=
  (r.user_id = some a.uid) && (r.plan = some a.plan) && (r.billingPeriod = a.billing) &&
    (r.createdAtMinute = some (minuteFloor a.createdAt))

instance {ε α : Type} [DecidableEq ε] [DecidableEq α] : DecidableEq (Except ε α)
  | .ok a, .ok b =>
    if h : a = b then .isTrue (by rw [h])
    else .isFalse (by intro hc; cases hc; exact h rfl)
  | .ok _, .error _ => .isFalse (by intro h; cases h)
  | .error _, .ok _ => .isFalse (by intro h; cases h)
  | .error e, .error f =>
    if h : e = f then .isTrue (by rw [h])
    else .isFalse (by intro hc; cases hc; exact h rfl)

/-- Program counter of one in-flight `createPendingPayment` call. -/
inductive CProc where
  | precheck
  | insertP
  | recover
  | fallback
  | done (res : Except PayErr PaymentRow)
deriving Repr, DecidableEq

/-- One atomic store operation of a `createPendingPayment` call.  The
re-read by primary key after a successful insert returns the row just
inserted (primary keys are unique) and is folded into the insert step. -/
def cstep (a : CreateArgs) (st : Store) : CProc → Store × CProc
  | .precheck =>
    match findExistingPending st a.uid a.plan a.billing a.createdAt with
    | some r => (st, .done (.ok r))
    | none => (st, .insertP)
  | .insertP =>
    match insertRow st (pendingRowOf a) with
    | .ok (st', r) => (st', .done (.ok r))
    | .error _ => (st, .recover)
  | .recover =>
    match conflictRecovery st a with
    | some r => (st, .done (.ok r))
    | none => (st, .fallback)
  | .fallback =>
    match createFallback st a with
    | some r => (st, .done (.ok r))
    | none => (st, .done (.error (.http 500 "Failed to create pending invoice")))
  | .done r => (st, .done r)

/-- A store shared by `n` interleaved calls. -/
structure CConfig where
  store : Store
  procs : List CProc
deriving Repr, DecidableEq

/-- Run the next atomic operation of call `i`. -/
def stepAt (a : CreateArgs) (c : CConfig) (i : Nat) : CConfig :=
  match c.procs[i]? with
  | none => c
  | some p =>
    let sp := cstep a c.store p
    ⟨sp.1, c.procs.set i sp.2⟩

/-- All interleaved executions: any call may take its next step at any
time. -/
inductive CReach (a : CreateArgs) : CConfig → CConfig → Prop
  | refl (c : CConfig) : CReach a c c
  | step (c₀ c₁ : CConfig) (i : Nat) : CReach a c₀ c₁ → CReach a c₀ (stepAt a c₁ i)

/-- Every call has returned. -/
def allDone (c : CConfig) : Bool :=
  c.procs.all (fun p => match p with | CProc.done _ => true | _ => false)

theorem optConflict_some_eq {α : Type} [DecidableEq α] (x : α) (y : Option α) :
    optConflict (some x) y = decide (y = some x) := by
  cases y with
  | none => simp [optConflict]
  | some z => simp [optConflict, eq_comm]

theorem hasKey_pendingRowOf (a : CreateArgs) (id : Nat) :
    hasKey a (pendingRowOf a id) = true := by
  simp [hasKey, pendingRowOf]

/-- For a non-null billing period, the tuple unique index fires exactly on
the correlation key: inserting the pending row conflicts with `r` iff `r`
carries the key. -/
theorem rowConflict_pendingRow (a : CreateArgs) (b : String) (hb : a.billing = some b)
    (id : Nat) (r : PaymentRow) : rowConflict (pendingRowOf a id) r = hasKey a r := by
  unfold rowConflict tupleConflict pendingRowOf hasKey
  simp only [hb]
  rw [optConflict_some_eq, optConflict_some_eq, optConflict_some_eq, optConflict_some_eq]
  simp [optConflict, hb]

theorem getElem?_mem {α : Type} {l : List α} {i : Nat} {a : α} (h : l[i]? = some a) :
    a ∈ l := by
  obtain ⟨hlt, rfl⟩ := List.getElem?_eq_some.mp h
  exact List.getElem_mem hlt

theorem fepPred_hasKey (a : CreateArgs) (hu : a.uid ≠ 0) (p : PaymentRow)
    (h : fepPred a.uid a.plan a.billing (minuteFloor a.createdAt) p = true) :
    hasKey a p = true := by
  unfold fepPred at h
  unfold hasKey
  simp only [Bool.and_eq_true, decide_eq_true_eq] at h ⊢
  obtain ⟨⟨⟨⟨h1, h2⟩, h3⟩, h4⟩, h5⟩ := h
  refine ⟨⟨⟨?_, h2⟩, ?_⟩, h4⟩
  · cases hup : p.user_id with
    | none =>
      rw [hup] at h1
      simp only [Option.getD_none] at h1
      exact absurd h1.symm hu
    | some u =>
      rw [hup] at h1
      simp only [Option.getD_some] at h1
      rw [h1]
  · cases hbm : a.billing with
    | none =>
      rw [hbm] at h5
      unfold billingMatch at h5
      simpa [Option.isNone_iff_eq_none] using h5
    | some bb =>
      rw [hbm] at h5
      unfold billingMatch at h5
      simpa using h5

theorem recoveryPred_hasKey (a : CreateArgs) (hu : a.uid ≠ 0) (p : PaymentRow)
    (h : recoveryPred a p = true) : hasKey a p = true := by
  unfold recoveryPred at h
  unfold hasKey
  simp only [Bool.and_eq_true, decide_eq_true_eq] at h ⊢
  obtain ⟨⟨⟨⟨h1, h2⟩, h3⟩, h4⟩, h5⟩ := h
  refine ⟨⟨⟨?_, h2⟩, ?_⟩, h4⟩
  · cases hup : p.user_id with
    | none =>
      rw [hup] at h1
      simp only [Option.getD_none] at h1
      exact absurd h1.symm hu
    | some u =>
      rw [hup] at h1
      simp only [Option.getD_some] at h1
      rw [h1]
  · cases hbm : a.billing with
    | none =>
      rw [hbm] at h5
      unfold billingMatch at h5
      simpa [Option.isNone_iff_eq_none] using h5
    | some bb =>
      rw [hbm] at h5
      unfold billingMatch at h5
      simpa using h5

theorem hasKey_recoveryPred (a : CreateArgs) (p : PaymentRow) (h : hasKey a p = true)
    (hs : p.status = "pending") : recoveryPred a p = true := by
  unfold hasKey at h
  unfold recoveryPred
  simp only [Bool.and_eq_true, decide_eq_true_eq] at h ⊢
  obtain ⟨⟨⟨h1, h2⟩, h3⟩, h4⟩ := h
  refine ⟨⟨⟨⟨?_, h2⟩, hs⟩, h4⟩, ?_⟩
  · rw [h1]
    rfl
  · rw [h3]
    cases a.billing with
    | none => rfl
    | some bb => simp [billingMatch]

theorem insertRow_ok_shape (st : Store) (mk : Nat → PaymentRow) (st' : Store)
    (r : PaymentRow) (h : insertRow st mk = .ok (st', r)) :
    st'.rows = st.rows ++ [mk st.nextId] ∧ r = mk st.nextId ∧
      ∀ s ∈ st.rows, rowConflict (mk st.nextId) s = false := by
  unfold insertRow at h
  by_cases hany : st.rows.any (fun s => rowConflict (mk st.nextId) s) = true
  · rw [if_pos hany] at h
    cases h
  · rw [if_neg hany] at h
    simp only [Except.ok.injEq, Prod.mk.injEq] at h
    obtain ⟨h1, h2⟩ := h
    refine ⟨by rw [← h1], h2.symm, ?_⟩
    intro s hs
    have hfalse : st.rows.any (fun s => rowConflict (mk st.nextId) s) = false :=
      Bool.eq_false_iff.mpr hany
    simpa using List.any_eq_false.mp hfalse s hs

theorem insertRow_error_shape (st : Store) (mk : Nat → PaymentRow) (e : DbErr)
    (h : insertRow st mk = .error e) :
    ∃ s ∈ st.rows, rowConflict (mk st.nextId) s = true := by
  unfold insertRow at h
  by_cases hany : st.rows.any (fun s => rowConflict (mk st.nextId) s) = true
  · simpa using List.any_eq_true.mp hany
  · rw [if_neg hany] at h
    cases h

/-- The execution invariant of interleaved identical `createPendingPayment`
calls (non-null billing period, starting from a store with no key row):
every key row is pending, at most one key row exists, no call ever reaches
the last-resort fallback, a call in conflict recovery implies the key row
exists, and a finished call returned a key row that is still in the store. -/
structure CInv (a : CreateArgs) (c : CConfig) : Prop where
  keyPending : ∀ r ∈ c.store.rows, hasKey a r = true → r.status = "pending"
  keyAtMost : (c.store.rows.filter (hasKey a)).length ≤ 1
  noFallback : CProc.fallback ∉ c.procs
  recoverKey : CProc.recover ∈ c.procs → 1 ≤ (c.store.rows.filter (hasKey a)).length
  doneOk : ∀ res, CProc.done res ∈ c.procs →
    ∃ r, res = Except.ok r ∧ hasKey a r = true ∧ r ∈ c.store.rows

/-- One interleaved step preserves the execution invariant. -/
theorem cinv_step (a : CreateArgs) (b : String) (hb : a.billing = some b) (hu : a.uid ≠ 0)
    (c : CConfig) (i : Nat) (h : CInv a c) : CInv a (stepAt a c i) := by
  unfold stepAt
  cases hpi : c.procs[i]? with
  | none => exact h
  | some p =>
    have hpmem : p ∈ c.procs := getElem?_mem hpi
    cases p with
    | precheck =>
      cases hfep : findExistingPending c.store a.uid a.plan a.billing a.createdAt with
      | some r =>
        have hfep2 := hfep
        unfold findExistingPending at hfep2
        obtain ⟨hrmem, hrpred, -⟩ := latestBy_spec _ _ _ hfep2
        have hrkey : hasKey a r = true := fepPred_hasKey a hu r hrpred
        simp only [cstep, hfep]
        refine ⟨h.keyPending, h.keyAtMost, ?_, ?_, ?_⟩
        · intro hf
          rcases List.mem_or_eq_of_mem_set hf with hf | hf
          · exact h.noFallback hf
          · simp at hf
        · intro hrec
          rcases List.mem_or_eq_of_mem_set hrec with hrec | hrec
          · exact h.recoverKey hrec
          · simp at hrec
        · intro res hres
          rcases List.mem_or_eq_of_mem_set hres with hres | hres
          · exact h.doneOk res hres
          · have hres' := CProc.done.inj hres
            subst hres'
            exact ⟨r, rfl, hrkey, hrmem⟩
      | none =>
        simp only [cstep, hfep]
        refine ⟨h.keyPending, h.keyAtMost, ?_, ?_, ?_⟩
        · intro hf
          rcases List.mem_or_eq_of_mem_set hf with hf | hf
          · exact h.noFallback hf
          · simp at hf
        · intro hrec
          rcases List.mem_or_eq_of_mem_set hrec with hrec | hrec
          · exact h.recoverKey hrec
          · simp at hrec
        · intro res hres
          rcases List.mem_or_eq_of_mem_set hres with hres | hres
          · exact h.doneOk res hres
          · simp at hres
    | insertP =>
      cases hins : insertRow c.store (pendingRowOf a) with
      | ok pr =>
        obtain ⟨st', r⟩ := pr
        obtain ⟨hrows, hr, hnoconf⟩ := insertRow_ok_shape _ _ _ _ hins
        have hnokey : c.store.rows.filter (hasKey a) = [] := by
          by_contra hne
          obtain ⟨k, hk⟩ := List.exists_mem_of_ne_nil _ hne
          have hkf := List.mem_filter.mp hk
          have hconf := hnoconf k hkf.1
          rw [rowConflict_pendingRow a b hb] at hconf
          rw [hkf.2] at hconf
          cases hconf
        have hkeynew : hasKey a (pendingRowOf a c.store.nextId) = true :=
          hasKey_pendingRowOf a _
        have hfilter' : st'.rows.filter (hasKey a) = [pendingRowOf a c.store.nextId] := by
          rw [hrows, List.filter_append, hnokey]
          simp [hkeynew]
        simp only [cstep, hins]
        refine ⟨?_, ?_, ?_, ?_, ?_⟩
        · intro s hs hkey
          rw [hrows] at hs
          rcases List.mem_append.mp hs with hs | hs
          · exact h.keyPending s hs hkey
          · rw [List.mem_singleton.mp hs]
            rfl
        · rw [hfilter']
          simp
        · intro hf
          rcases List.mem_or_eq_of_mem_set hf with hf | hf
          · exact h.noFallback hf
          · simp at hf
        · intro hrec
          rcases List.mem_or_eq_of_mem_set hrec with hrec | hrec
          · exfalso
            have hlen := h.recoverKey hrec
            rw [hnokey] at hlen
            simp at hlen
          · simp at hrec
        · intro res hres
          rcases List.mem_or_eq_of_mem_set hres with hres | hres
          · obtain ⟨r0, hres0, hkey0, hmem0⟩ := h.doneOk res hres
            refine ⟨r0, hres0, hkey0, ?_⟩
            rw [hrows]
            exact List.mem_append_left _ hmem0
          · have hres' := CProc.done.inj hres
            subst hres'
            refine ⟨r, rfl, by rw [hr]; exact hkeynew, ?_⟩
            rw [hrows, hr]
            exact List.mem_append_right _ (List.mem_singleton_self _)
      | error e =>
        obtain ⟨s, hsmem, hsconf⟩ := insertRow_error_shape _ _ _ hins
        rw [rowConflict_pendingRow a b hb] at hsconf
        have hpos : 1 ≤ (c.store.rows.filter (hasKey a)).length := by
          have hsk : s ∈ c.store.rows.filter (hasKey a) :=
            List.mem_filter.mpr ⟨hsmem, hsconf⟩
          exact List.length_pos.mpr (List.ne_nil_of_mem hsk)
        simp only [cstep, hins]
        refine ⟨h.keyPending, h.keyAtMost, ?_, ?_, ?_⟩
        · intro hf
          rcases List.mem_or_eq_of_mem_set hf with hf | hf
          · exact h.noFallback hf
          · simp at hf
        · intro _
          exact hpos
        · intro res hres
          rcases List.mem_or_eq_of_mem_set hres with hres | hres
          · exact h.doneOk res hres
          · simp at hres
    | recover =>
      cases hrec : conflictRecovery c.store a with
      | some r =>
        have hrec2 := hrec
        unfold conflictRecovery at hrec2
        obtain ⟨hrmem, hrpred, -⟩ := latestBy_spec _ _ _ hrec2
        have hrkey := recoveryPred_hasKey a hu r hrpred
        simp only [cstep, hrec]
        refine ⟨h.keyPending, h.keyAtMost, ?_, ?_, ?_⟩
        · intro hf
          rcases List.mem_or_eq_of_mem_set hf with hf | hf
          · exact h.noFallback hf
          · simp at hf
        · intro hrecm
          rcases List.mem_or_eq_of_mem_set hrecm with hrecm | hrecm
          · exact h.recoverKey hrecm
          · simp at hrecm
        · intro res hres
          rcases List.mem_or_eq_of_mem_set hres with hres | hres
          · exact h.doneOk res hres
          · have hres' := CProc.done.inj hres
            subst hres'
            exact ⟨r, rfl, hrkey, hrmem⟩
      | none =>
        exfalso
        have hlen := h.recoverKey hpmem
        have hne : c.store.rows.filter (hasKey a) ≠ [] := by
          intro hnil
          rw [hnil] at hlen
          simp at hlen
        obtain ⟨k, hk⟩ := List.exists_mem_of_ne_nil _ hne
        have hkf := List.mem_filter.mp hk
        have hkpend := h.keyPending k hkf.1 hkf.2
        have hkrec := hasKey_recoveryPred a k hkf.2 hkpend
        have hkmem : k ∈ c.store.rows.filter (recoveryPred a) :=
          List.mem_filter.mpr ⟨hkf.1, hkrec⟩
        have hrec2 := hrec
        unfold conflictRecovery at hrec2
        have hnil2 := (latestBy_eq_none_iff _ _).mp hrec2
        rw [hnil2] at hkmem
        exact List.not_mem_nil k hkmem
    | fallback =>
      exact absurd hpmem h.noFallback
    | done res =>
      simp only [cstep]
      refine ⟨h.keyPending, h.keyAtMost, ?_, ?_, ?_⟩
      · intro hf
        rcases List.mem_or_eq_of_mem_set hf with hf | hf
        · exact h.noFallback hf
        · simp at hf
      · intro hrec
        rcases List.mem_or_eq_of_mem_set hrec with hrec | hrec
        · exact h.recoverKey hrec
        · simp at hrec
      · intro res' hres
        rcases List.mem_or_eq_of_mem_set hres with hres | hres
        · exact h.doneOk res' hres
        · have hres' := CProc.done.inj hres
          rw [hres']
          exact h.doneOk res hpmem

theorem cinv_reach (a : CreateArgs) (b : String) (hb : a.billing = some b)
    (hu : a.uid ≠ 0) (c₀ c : CConfig) (h0 : CInv a c₀) (hr : CReach a c₀ c) :
    CInv a c := by
  induction hr with
  | refl => exact h0
  | step c2 i _ ih => exact cinv_step a b hb hu c2 i ih

theorem creach_length (a : CreateArgs) (c₀ c : CConfig) (hr : CReach a c₀ c) :
    c.procs.length = c₀.procs.length := by
  induction hr with
  | refl => rfl
  | step c2 i _ ih =>
    unfold stepAt
    cases hpi : c2.procs[i]? with
    | none => exact ih
    | some p =>
      simp only [List.length_set]
      exact ih

theorem cinv_init (a : CreateArgs) (st0 : Store)
    (h0 : st0.rows.filter (hasKey a) = []) (n : Nat) :
    CInv a ⟨st0, List.replicate n CProc.precheck⟩ := by
  refine ⟨?_, ?_, ?_, ?_, ?_⟩
  · intro r hr hk
    exfalso
    have : r ∈ st0.rows.filter (hasKey a) := List.mem_filter.mpr ⟨hr, hk⟩
    rw [h0] at this
    exact List.not_mem_nil r this
  · rw [h0]
    simp
  · intro hf
    have := List.eq_of_mem_replicate hf
    cases this
  · intro hrec
    have := List.eq_of_mem_replicate hrec
    cases this
  · intro res hres
    have := List.eq_of_mem_replicate hres
    cases this

/-- C1 amended: for a non-null billing period, any number of
`createPendingPayment` calls with identical `(owner, plan, billing,
minuteBucket)`, interleaved arbitrarily against a store that holds no row
with that key, converge: when every call has finished, exactly one row with
the key exists, and every call returned that row without error (the
pre-check returns an existing pending row, and an insert that loses the
uniqueness race recovers by re-reading the winner).  With a null billing
period the tuple unique index does not fire (NULLs are distinct), and two
concurrent calls can both insert — see the counterexample. -/
theorem createPendingPayment_concurrent_one_row (a : CreateArgs) (b : String)
    (hb : a.billing = some b) (hu : a.uid ≠ 0) (st0 : Store)
    (h0 : st0.rows.filter (hasKey a) = []) (n : Nat) (hn : 0 < n) (c : CConfig)
    (hr : CReach a ⟨st0, List.replicate n CProc.precheck⟩ c)
    (hdone : allDone c = true) :
    (c.store.rows.filter (hasKey a)).length = 1 ∧
      ∀ p ∈ c.procs, ∃ r, p = CProc.done (Except.ok r) ∧
        r ∈ c.store.rows.filter (hasKey a) := by
  have hinv := cinv_reach a b hb hu _ c (cinv_init a st0 h0 n) hr
  have hlen : c.procs.length = n := by
    have := creach_length a _ c hr
    simpa using this
  have hdone' : ∀ p ∈ c.procs, ∃ res, p = CProc.done res := by
    intro p hp
    have hall := List.all_eq_true.mp (by exact hdone) p hp
    cases p with
    | done res => exact ⟨res, rfl⟩
    | precheck => simp at hall
    | insertP => simp at hall
    | recover => simp at hall
    | fallback => simp at hall
  have hpart2 : ∀ p ∈ c.procs, ∃ r, p = CProc.done (Except.ok r) ∧
      r ∈ c.store.rows.filter (hasKey a) := by
    intro p hp
    obtain ⟨res, rfl⟩ := hdone' p hp
    obtain ⟨r, hres, hkey, hmem⟩ := hinv.doneOk res hp
    exact ⟨r, by rw [hres], List.mem_filter.mpr ⟨hmem, hkey⟩⟩
  refine ⟨?_, hpart2⟩
  have hnonnil : c.procs ≠ [] := by
    intro hnil
    rw [hnil] at hlen
    simp at hlen
    omega
  obtain ⟨p, hp⟩ := List.exists_mem_of_ne_nil _ hnonnil
  obtain ⟨r, hpr, hrmem⟩ := hpart2 p hp
  have hge : 1 ≤ (c.store.rows.filter (hasKey a)).length :=
    List.length_pos.mpr (List.ne_nil_of_mem hrmem)
  have hle := hinv.keyAtMost
  omega

/-- Witness for C1's amended theorem: two concurrent calls (billing
`monthly`) where the second pre-checks after the first has inserted; the
store ends with exactly one key row. -/
theorem createPendingPayment_concurrent_one_row_witness :
    ((stepAt ⟨1, "Pro", some "monthly", 1299, "USD", 0, none, none⟩
        (stepAt ⟨1, "Pro", some "monthly", 1299, "USD", 0, none, none⟩
          (stepAt ⟨1, "Pro", some "monthly", 1299, "USD", 0, none, none⟩
            ⟨⟨[], 1⟩, List.replicate 2 CProc.precheck⟩ 0) 0) 1).store.rows.filter
      (hasKey ⟨1, "Pro", some "monthly", 1299, "USD", 0, none, none⟩)).length = 1 :=
  (createPendingPayment_concurrent_one_row
    ⟨1, "Pro", some "monthly", 1299, "USD", 0, none, none⟩ "monthly" rfl (by decide)
    ⟨[], 1⟩ rfl 2 (by decide) _
    (CReach.step _ _ 1 (CReach.step _ _ 0 (CReach.step _ _ 0 (CReach.refl _))))
    (by decide)).1

/-- C1 counterexample: with a null billing period (the stored form of an
empty `billingPeriod`), the tuple unique index never fires, so an
interleaving where both calls pass the pre-check before either inserts ends
with TWO rows carrying the same `(owner, plan, billing, minuteBucket)` key —
the claim's "exactly one row for every billing period" is false. -/
theorem createPendingPayment_concurrent_null_billing_cx :
    CReach ⟨1, "Pro", none, 1299, "USD", 0, none, none⟩
        ⟨⟨[], 1⟩, List.replicate 2 CProc.precheck⟩
        (stepAt ⟨1, "Pro", none, 1299, "USD", 0, none, none⟩
          (stepAt ⟨1, "Pro", none, 1299, "USD", 0, none, none⟩
            (stepAt ⟨1, "Pro", none, 1299, "USD", 0, none, none⟩
              (stepAt ⟨1, "Pro", none, 1299, "USD", 0, none, none⟩
                ⟨⟨[], 1⟩, List.replicate 2 CProc.precheck⟩ 0) 1) 0) 1) ∧
      allDone (stepAt ⟨1, "Pro", none, 1299, "USD", 0, none, none⟩
          (stepAt ⟨1, "Pro", none, 1299, "USD", 0, none, none⟩
            (stepAt ⟨1, "Pro", none, 1299, "USD", 0, none, none⟩
              (stepAt ⟨1, "Pro", none, 1299, "USD", 0, none, none⟩
                ⟨⟨[], 1⟩, List.replicate 2 CProc.precheck⟩ 0) 1) 0) 1) = true ∧
      ((stepAt ⟨1, "Pro", none, 1299, "USD", 0, none, none⟩
          (stepAt ⟨1, "Pro", none, 1299, "USD", 0, none, none⟩
            (stepAt ⟨1, "Pro", none, 1299, "USD", 0, none, none⟩
              (stepAt ⟨1, "Pro", none, 1299, "USD", 0, none, none⟩
                ⟨⟨[], 1⟩, List.replicate 2 CProc.precheck⟩ 0) 1) 0) 1).store.rows.filter
        (hasKey ⟨1, "Pro", none, 1299, "USD", 0, none, none⟩)).length = 2 :=
  ⟨CReach.step _ _ 1 (CReach.step _ _ 0 (CReach.step _ _ 1
      (CReach.step _ _ 0 (CReach.refl _)))),
    by decide, by decide⟩

end BrainiHi
